import Mathlib

/-!
Verification of the AllVideoDownload subtitle-processing frontend against its
natural-language specification.

The development shallowly embeds the relevant TypeScript source:

* `frontend/src/utils/audioProcessor.ts` — the audio staging chain
  (`convertToMono`, `resampleAudio`, `trimAudio`, `normalizeAudio`,
  `processAudioFile`, `extractAudioFromVideo`).  Float32 samples are modelled
  as exact rationals (`ℚ`); JavaScript `Math.floor` is `Int.floor`.
* the `SubtitlePage` component — the task polling loop `pollStatus` inside
  `handleAsyncProcess`, the cancel button handler, the recovery progress
  simulation `startProgressSimulation`, and `TaskManager.loadTask`.
* the `SubtitlePageV2` component — the SSE stream handler
  `handleStreamResponse`.

The backend (FastAPI) sources are not part of the repository snapshot; the
spec components that live there (TaskRegistry `requestCancel`, the
ModelCache thundering-herd guard) are modelled from the spec and are marked
as such in their doc comments.
-/

namespace AVD

/-! ## Audio processing (frontend/src/utils/audioProcessor.ts) -/

/-- A decoded `AudioBuffer`: one sample list per channel plus the buffer's
sample rate.  `length` of the JS `AudioBuffer` is the frame count, read off
the first channel. -/
structure AudioBuf where
  channels : List (List ℚ)
  sampleRate : ℚ
deriving DecidableEq, Repr

/-- The JS `audioBuffer.length` property (frame count). -/
def AudioBuf.frames (b : AudioBuf) : ℕ := (b.channels.headD []).length

/-- Options of `AudioProcessor.processAudioFile`, with the source's default
values.  `targetChannels` is destructured but never used by the source. -/
structure AudioProcessingOptions where
  targetSampleRate : ℚ := 16000
  targetChannels : ℕ := 1
  maxDuration : ℚ := 30
  normalizeVolume : Bool := true
deriving DecidableEq, Repr

/-- `AudioProcessor.convertToMono`: a single channel is returned as is,
otherwise the channels are averaged pointwise over the frame count. -/
def convertToMono (b : AudioBuf) : List ℚ :=
  if b.channels.length = 1 then b.channels.headD []
  else
    (List.range b.frames).map (fun i =>
      (b.channels.foldl (fun sum ch => sum + ch.getD i 0) 0) / b.channels.length)

/-- `AudioProcessor.resampleAudio`: identity on equal rates, otherwise linear
interpolation at stride `ratio = inRate / outRate` over
`floor (length / ratio)` output samples.  Out-of-range reads are `getD _ 0`
(the loop bound keeps indices in range for positive rates). -/
def resampleAudio (input : List ℚ) (inputSampleRate outputSampleRate : ℚ) : List ℚ :=
  if inputSampleRate = outputSampleRate then input
  else
    let ratio := inputSampleRate / outputSampleRate
    let outputLength := (⌊(input.length : ℚ) / ratio⌋).toNat
    (List.range outputLength).map (fun i =>
      let inputIndex : ℚ := (i : ℚ) * ratio
      let index := (⌊inputIndex⌋).toNat
      let fraction := inputIndex - (index : ℚ)
      if index + 1 < input.length then
        input.getD index 0 * (1 - fraction) + input.getD (index + 1) 0 * fraction
      else
        input.getD index 0)

/-- JavaScript `array.slice(0, endIndex)`: a negative end index counts from
the end of the array. -/
def jsSlice (l : List ℚ) (endIndex : ℤ) : List ℚ :=
  if 0 ≤ endIndex then l.take endIndex.toNat
  else l.take ((l.length : ℤ) + endIndex).toNat

/-- `AudioProcessor.trimAudio`: keep at most
`maxSamples = floor (sampleRate * maxDuration)` samples. -/
def trimAudio (audioBuffer : List ℚ) (sampleRate maxDuration : ℚ) : List ℚ :=
  let maxSamples : ℤ := ⌊sampleRate * maxDuration⌋
  if (audioBuffer.length : ℤ) ≤ maxSamples then audioBuffer
  else jsSlice audioBuffer maxSamples

/-- The running maximum of absolute sample values computed by the first loop
of `AudioProcessor.normalizeAudio`, starting from `maxValue = 0`. -/
def maxAbsValue (audioBuffer : List ℚ) : ℚ :=
  audioBuffer.foldl (fun maxValue x => if |x| > maxValue then |x| else maxValue) 0

/-- `AudioProcessor.normalizeAudio`: scale every sample by `1 / maxValue`
when the maximum absolute value is positive, otherwise copy the input. -/
def normalizeAudio (audioBuffer : List ℚ) : List ℚ :=
  let maxValue := maxAbsValue audioBuffer
  if maxValue > 0 then
    let scale := 1 / maxValue
    audioBuffer.map (fun x => x * scale)
  else audioBuffer

/-- `AudioProcessor.processAudioFile` after decoding: mono mixdown, resample
to the target rate, trim to the maximum duration, then optional volume
normalization. -/
def processAudioFile (decoded : AudioBuf) (opts : AudioProcessingOptions) : List ℚ :=
  let monoBuffer := convertToMono decoded
  let resampledBuffer := resampleAudio monoBuffer decoded.sampleRate opts.targetSampleRate
  let trimmedBuffer := trimAudio resampledBuffer opts.targetSampleRate opts.maxDuration
  if opts.normalizeVolume then normalizeAudio trimmedBuffer else trimmedBuffer

/-- `AudioProcessor.extractAudioFromVideo`: the result is
`new Float32Array(audioData)` where `audioData` accumulates, in order, the
`inputBuffer` contents delivered by the `ScriptProcessor.onaudioprocess`
callbacks during real-time playback.  The delivered chunk sequence is an
input of the embedding: the video file itself only drives playback and is
never read by this code path. -/
def extractAudioFromVideo (videoFile : ℕ) (deliveredChunks : List (List ℚ)) : List ℚ :=
  deliveredChunks.flatten

/-! ## Task status polling (SubtitlePage, `handleAsyncProcess`) -/

/-- The backend-reported task status strings consumed by `pollStatus`. -/
inductive BackendStatus where
  | pending
  | running
  | completed
  | failed
  | cancelled
deriving DecidableEq, Repr

/-- Completed, failed and cancelled are the terminal statuses. -/
def BackendStatus.isTerminal : BackendStatus → Bool
  | .completed => true
  | .failed => true
  | .cancelled => true
  | _ => false

/-- One JSON body returned by the status endpoint: the fields `pollStatus`
reads (`message`, `result`, `error` strings are dropped from the model). -/
structure StatusReport where
  status : BackendStatus
  progress : ℚ
deriving DecidableEq, Repr

/-- The client-side state of one `handleAsyncProcess` run: the
`ProcessingStatus` fields the claims are about, the local `isCompleted`
flag, whether the `scheduleNextPoll` loop is still running, and (as a ghost
field) the last backend status the poll loop observed. -/
structure ClientState where
  isProcessing : Bool
  progress : ℚ
  observed : Option BackendStatus
  isCompleted : Bool
  polling : Bool
  taskId : Option ℕ
deriving DecidableEq, Repr

/-- Client state right after a task is submitted (step 2 of
`handleAsyncProcess`). -/
def initClient : ClientState :=
  { isProcessing := true
    progress := 0
    observed := none
    isCompleted := false
    polling := true
    taskId := some 0 }

/-- One round of `pollStatus`, driven by the backend report `r`; the second
component records whether this round performed the one-shot terminal action
(triggering the download and success handling on `completed`, throwing the
failure on `failed`, the reset on `cancelled`).  Control flow of the source:
`updateProcessingStatus` always runs first with the report's values; the
`completed`/`failed`/`cancelled` branches are guarded by `!isCompleted`;
`completed` and `cancelled` return `true` which stops `scheduleNextPoll`,
while the `failed` branch throws — `scheduleNextPoll` catches the error and
keeps polling. -/
def pollStep (s : ClientState) (r : StatusReport) : ClientState × Bool :=
  if s.polling = false then (s, false)
  else
    let s1 : ClientState :=
      { s with
        isProcessing := (r.status == .running || r.status == .pending)
        progress := r.progress
        observed := some r.status }
    if r.status = .completed ∧ s.isCompleted = false then
      ({ s1 with isCompleted := true, polling := false }, true)
    else if r.status = .failed ∧ s.isCompleted = false then
      ({ s1 with isCompleted := true }, true)
    else if r.status = .cancelled ∧ s.isCompleted = false then
      ({ s1 with isCompleted := true, isProcessing := false, progress := 0,
                 polling := false }, true)
    else (s1, false)

/-- The cancel button's `onClick`: whatever the backend answered, the
frontend state is reset (`isProcessing := false, progress := 0,
taskId := undefined`).  It neither stops the polling loop nor touches the
local `isCompleted` flag. -/
def cancelClick (s : ClientState) : ClientState :=
  { s with isProcessing := false, progress := 0, taskId := none }

/-- One event consumed by the client step relation: either a poll round with
a backend report, or a cancel button click. -/
inductive ClientEvent where
  | poll (r : StatusReport)
  | cancel
deriving DecidableEq, Repr

/-- The client step relation: polling plus the cancel handler. -/
def clientStep (s : ClientState) : ClientEvent → ClientState
  | .poll r => (pollStep s r).1
  | .cancel => cancelClick s

/-- One tick of `startProgressSimulation`: a cleared (not processing) state
is left alone; otherwise progress becomes `min (progress + 2) 90` (the
message text is dropped from the model). -/
def simStep (s : ClientState) : ClientState :=
  if s.isProcessing = false then s
  else { s with progress := min (s.progress + 2) 90 }

/-- Number of poll rounds in a report sequence that performed the one-shot
terminal action. -/
def runPollCount : ClientState → List StatusReport → ℕ
  | _, [] => 0
  | s, r :: rs =>
    let p := pollStep s r
    (if p.2 then 1 else 0) + runPollCount p.1 rs

/-! ## SSE stream handler (SubtitlePageV2, `handleStreamResponse`) -/

/-- One server-sent event consumed by `handleStreamResponse.onmessage`:
`data.status` is `processing`, `completed` or `error` (message and file-name
strings are dropped from the model). -/
inductive StreamEvent where
  | processing (progress : ℚ)
  | completedEvent
  | errorEvent
deriving DecidableEq, Repr

/-- The `ProcessingStatus` fields the stream handler writes. -/
structure StreamState where
  isProcessing : Bool
  progress : ℚ
deriving DecidableEq, Repr

/-- `handleStreamResponse.onmessage`: a `processing` event copies the
reported progress, a `completed` event forces `progress := 100`, an `error`
event resets the state. -/
def streamStep (s : StreamState) : StreamEvent → StreamState
  | .processing p => { s with progress := p }
  | .completedEvent => { s with progress := 100 }
  | .errorEvent => { isProcessing := false, progress := 0 }

/-! ## Task persistence (SubtitlePage, `TaskManager`) -/

/-- The `operation` strings of a saved task (`generate`, `translate`,
`burn`, or anything else). -/
inductive TaskOperation where
  | generate
  | translateTask
  | burn
  | unknownOp
deriving DecidableEq, Repr

/-- `getExpirationTime` inside `TaskManager.loadTask`, in milliseconds. -/
def getExpirationTime : TaskOperation → ℤ
  | .generate => 60 * 60 * 1000
  | .translateTask => 45 * 60 * 1000
  | .burn => 90 * 60 * 1000
  | .unknownOp => 60 * 60 * 1000

/-- A well-formed saved `ProcessingStatus` record as read back from
`localStorage`.  `startTime = 0` plays the role of a JavaScript-falsy
`status.startTime` (absent or zero). -/
structure SavedStatus where
  isProcessing : Bool
  progress : ℚ
  operation : TaskOperation
  startTime : ℤ
deriving DecidableEq, Repr

/-- `TaskManager.loadTask` at time `now`: a missing record loads as nothing;
a record with a truthy `startTime` whose age exceeds its operation's
expiration time is cleared and reported as nothing; otherwise the record is
returned unchanged. -/
def loadTask (saved : Option SavedStatus) (now : ℤ) : Option SavedStatus :=
  match saved with
  | none => none
  | some st =>
    if st.startTime ≠ 0 ∧ now - st.startTime > getExpirationTime st.operation
    then none
    else some st

/-! ## Backend TaskRegistry (modelled from the spec)

The FastAPI backend is not part of the repository snapshot (only its
Dockerfile, requirements and a module README are), so the TaskRegistry of
spec §4.1 is modelled from the spec's words. -/

/-- Modelled from the spec: a backend Task record as far as `requestCancel`
is concerned — its status and the cooperative cancellation flag (the
backend sources are missing from the snapshot). -/
structure RegTask where
  status : BackendStatus
  cancelRequested : Bool
deriving DecidableEq, Repr

/-- Modelled from the spec: result of `requestCancel(taskId)`. -/
inductive CancelResult where
  | ok
  | notFound
  | alreadyTerminal
deriving DecidableEq, Repr

/-- Lookup a task id in the registry's association list. -/
def lookupTask : List (ℕ × RegTask) → ℕ → Option RegTask
  | [], _ => none
  | p :: rest, taskId => if p.1 = taskId then some p.2 else lookupTask rest taskId

/-- Replace the first binding of a task id, leaving the rest untouched. -/
def updateTask : List (ℕ × RegTask) → ℕ → RegTask → List (ℕ × RegTask)
  | [], _, _ => []
  | p :: rest, taskId, t2 =>
    if p.1 = taskId then (p.1, t2) :: rest else p :: updateTask rest taskId t2

/-- Modelled from the spec: `requestCancel(taskId) -> ok | NotFound |
AlreadyTerminal` — flags a live task for cancellation without otherwise
changing it, is a no-op on a terminal task, and reports a missing task
(the backend sources are missing from the snapshot). -/
def requestCancel (reg : List (ℕ × RegTask)) (taskId : ℕ) :
    CancelResult × List (ℕ × RegTask) :=
  match lookupTask reg taskId with
  | none => (.notFound, reg)
  | some t =>
    if t.status.isTerminal then (.alreadyTerminal, reg)
    else (.ok, updateTask reg taskId { t with cancelRequested := true })

/-- Modelled from the spec: the PipelineExecutor's cancellation checkpoint —
a live task whose cancellation flag is set settles into `Cancelled` within
one stage-boundary check (the backend sources are missing from the
snapshot). -/
def settleCancel (reg : List (ℕ × RegTask)) (taskId : ℕ) : List (ℕ × RegTask) :=
  match lookupTask reg taskId with
  | none => reg
  | some t =>
    if t.cancelRequested = true ∧ t.status.isTerminal = false
    then updateTask reg taskId { t with status := .cancelled }
    else reg

/-- Modelled from the spec: `cleanup` evicts a task's record from the
registry (the backend sources are missing from the snapshot). -/
def cleanupRegistry : List (ℕ × RegTask) → ℕ → List (ℕ × RegTask)
  | [], _ => []
  | p :: rest, taskId =>
    if p.1 = taskId then cleanupRegistry rest taskId
    else p :: cleanupRegistry rest taskId

/-! ## ModelCache thundering-herd guard (modelled from the spec) -/

/-- Modelled from the spec: the observable ModelCache state that the
thundering-herd property of §4.2 speaks about — which model keys have a
cached entry, which have a load in flight, how many callers wait on that
in-flight load, and how many external load calls were issued (the backend
sources are missing from the snapshot). -/
structure CacheState where
  loadedKeys : List String
  inFlight : List String
  waiting : ℕ
  loadCount : ℕ
deriving DecidableEq, Repr

/-- The empty model cache. -/
def emptyCache : CacheState :=
  { loadedKeys := [], inFlight := [], waiting := 0, loadCount := 0 }

/-- Modelled from the spec: the entry step of one `borrow(modelKey)` call —
a cached key is reused at no cost, a key with an in-flight load is waited
on, and only an uncached, not-in-flight key issues an external load call
(the backend sources are missing from the snapshot). -/
def borrowStart (c : CacheState) (modelKey : String) : CacheState :=
  if modelKey ∈ c.loadedKeys then c
  else if modelKey ∈ c.inFlight then { c with waiting := c.waiting + 1 }
  else { c with inFlight := modelKey :: c.inFlight, loadCount := c.loadCount + 1 }

/-- `n` concurrent `borrow(modelKey)` calls entering one after the other
(any interleaving of the entry steps is this sequence, as each caller's
entry step is atomic under the cache's exclusive-access path). -/
def borrowMany (c : CacheState) (modelKey : String) : ℕ → CacheState
  | 0 => c
  | n + 1 => borrowMany (borrowStart c modelKey) modelKey n

/-- Modelled from the spec: completion of the single in-flight load — the
entry is inserted, the waiters all reuse the loaded handle and stop
waiting (the backend sources are missing from the snapshot). -/
def loadComplete (c : CacheState) (modelKey : String) : CacheState :=
  { c with
    loadedKeys := modelKey :: c.loadedKeys
    inFlight := c.inFlight.erase modelKey
    waiting := 0 }

/-! ## Helper lemmas -/

/-- The fold of `maxAbsValue` never drops below its accumulator. -/
lemma maxAbs_fold_ge (l : List ℚ) (a : ℚ) :
    a ≤ l.foldl (fun maxValue x => if |x| > maxValue then |x| else maxValue) a := by
  induction l generalizing a with
  | nil => exact le_refl a
  | cons x xs ih =>
    refine le_trans ?_ (ih (if |x| > a then |x| else a))
    split
    · exact le_of_lt (by assumption)
    · exact le_refl a

/-- The fold of `maxAbsValue` dominates every absolute value in the list. -/
lemma maxAbs_fold_mem (l : List ℚ) : ∀ (a x : ℚ), x ∈ l →
    |x| ≤ l.foldl (fun maxValue y => if |y| > maxValue then |y| else maxValue) a := by
  induction l with
  | nil => intro a x hx; cases hx
  | cons y ys ih =>
    intro a x hx
    rcases List.mem_cons.mp hx with h | h
    · subst h
      refine le_trans ?_ (maxAbs_fold_ge ys (if |x| > a then |x| else a))
      split
      · exact le_refl _
      · exact le_of_not_lt (by assumption)
    · exact ih (if |y| > a then |y| else a) x h

/-- `maxAbsValue` is nonnegative. -/
lemma maxAbsValue_nonneg (l : List ℚ) : 0 ≤ maxAbsValue l :=
  maxAbs_fold_ge l 0

/-- `maxAbsValue` dominates every absolute sample value. -/
lemma maxAbsValue_ge (l : List ℚ) (x : ℚ) (hx : x ∈ l) : |x| ≤ maxAbsValue l :=
  maxAbs_fold_mem l 0 x hx

/-- Evaluation of `maxAbsValue` on the two-sample buffer `[2, -4]`. -/
lemma maxAbsValue_two_four : maxAbsValue [2, -4] = 4 := by
  norm_num [maxAbsValue]

/-! ## C6, C9, C7 — audio staging -/

/-- C6: audio staging truncates to the maximum duration — a buffer of at
most `sampleRate * maxDuration` samples is returned unchanged, a longer one
is cut to exactly the prefix of `floor (sampleRate * maxDuration)` samples,
and the staged audio never exceeds `maxDuration` seconds. -/
theorem trimAudio_truncates (audioBuffer : List ℚ) (sampleRate maxDuration : ℚ)
    (hs : 0 ≤ sampleRate) (hd : 0 ≤ maxDuration) :
    (((audioBuffer.length : ℚ) ≤ sampleRate * maxDuration →
        trimAudio audioBuffer sampleRate maxDuration = audioBuffer)
      ∧ (¬ (audioBuffer.length : ℚ) ≤ sampleRate * maxDuration →
        trimAudio audioBuffer sampleRate maxDuration
          = audioBuffer.take (⌊sampleRate * maxDuration⌋).toNat))
    ∧ ((trimAudio audioBuffer sampleRate maxDuration).length : ℚ)
        ≤ sampleRate * maxDuration := by
  have hprod : (0 : ℚ) ≤ sampleRate * maxDuration := mul_nonneg hs hd
  have hm : (0 : ℤ) ≤ ⌊sampleRate * maxDuration⌋ := Int.floor_nonneg.mpr hprod
  have hiff : ((audioBuffer.length : ℤ) ≤ ⌊sampleRate * maxDuration⌋) ↔
      ((audioBuffer.length : ℚ) ≤ sampleRate * maxDuration) := by
    rw [Int.le_floor]
    push_cast
    exact Iff.rfl
  have hfloor : ((⌊sampleRate * maxDuration⌋.toNat : ℚ)) ≤ sampleRate * maxDuration := by
    have : ((⌊sampleRate * maxDuration⌋.toNat : ℤ) : ℚ) ≤ sampleRate * maxDuration := by
      rw [Int.toNat_of_nonneg hm]
      exact Int.floor_le _
    exact_mod_cast this
  constructor
  · constructor
    · intro hle
      unfold trimAudio
      rw [if_pos (hiff.mpr hle)]
    · intro hgt
      unfold trimAudio jsSlice
      rw [if_neg (fun h => hgt (hiff.mp h)), if_pos hm]
  · by_cases hle : (audioBuffer.length : ℚ) ≤ sampleRate * maxDuration
    · unfold trimAudio
      rw [if_pos (hiff.mpr hle)]
      exact hle
    · unfold trimAudio jsSlice
      rw [if_neg (fun h => hle (hiff.mp h)), if_pos hm]
      refine le_trans ?_ hfloor
      have : (audioBuffer.take ⌊sampleRate * maxDuration⌋.toNat).length
          ≤ ⌊sampleRate * maxDuration⌋.toNat := by
        simp [List.length_take]
      exact_mod_cast this

/-- C6 witness: a three-sample buffer at one sample per second with a
two-second limit is cut to its first two samples. -/
theorem trimAudio_truncates_witness :
    (((([1, 2, 3] : List ℚ).length : ℚ) ≤ 1 * 2 →
        trimAudio [1, 2, 3] 1 2 = [1, 2, 3])
      ∧ (¬ ((([1, 2, 3] : List ℚ).length : ℚ) ≤ 1 * 2) →
        trimAudio [1, 2, 3] 1 2 = ([1, 2, 3] : List ℚ).take (⌊(1 : ℚ) * 2⌋).toNat))
    ∧ ((trimAudio [1, 2, 3] 1 2).length : ℚ) ≤ 1 * 2 :=
  trimAudio_truncates [1, 2, 3] 1 2 (by norm_num) (by norm_num)

/-- C9: `normalizeAudio` keeps the buffer length, bounds every output
sample by one in absolute value, scales by the reciprocal of a positive
maximum absolute value, and is the identity when that maximum is zero. -/
theorem normalizeAudio_spec (audioBuffer : List ℚ) :
    (normalizeAudio audioBuffer).length = audioBuffer.length
    ∧ (∀ y ∈ normalizeAudio audioBuffer, |y| ≤ 1)
    ∧ (0 < maxAbsValue audioBuffer →
        normalizeAudio audioBuffer
          = audioBuffer.map (fun x => x * (1 / maxAbsValue audioBuffer)))
    ∧ (maxAbsValue audioBuffer = 0 → normalizeAudio audioBuffer = audioBuffer) := by
  by_cases hpos : 0 < maxAbsValue audioBuffer
  · refine ⟨?_, ?_, fun _ => ?_, fun hz => absurd hz (ne_of_gt hpos)⟩
    · unfold normalizeAudio
      rw [if_pos hpos]
      exact List.length_map _ _
    · intro y hy
      unfold normalizeAudio at hy
      rw [if_pos hpos] at hy
      rcases List.mem_map.mp hy with ⟨x, hx, rfl⟩
      have hxle : |x| ≤ maxAbsValue audioBuffer := maxAbsValue_ge audioBuffer x hx
      have hscale : (0 : ℚ) ≤ 1 / maxAbsValue audioBuffer := by positivity
      calc |x * (1 / maxAbsValue audioBuffer)|
          = |x| * (1 / maxAbsValue audioBuffer) := by
            rw [abs_mul, abs_of_nonneg hscale]
        _ ≤ maxAbsValue audioBuffer * (1 / maxAbsValue audioBuffer) :=
            mul_le_mul_of_nonneg_right hxle hscale
        _ = 1 := by field_simp
    · unfold normalizeAudio
      rw [if_pos hpos]
  · have hz : maxAbsValue audioBuffer = 0 :=
      le_antisymm (le_of_not_lt hpos) (maxAbsValue_nonneg audioBuffer)
    refine ⟨?_, ?_, fun hp => absurd hp hpos, fun _ => ?_⟩
    · unfold normalizeAudio
      rw [if_neg hpos]
    · intro y hy
      unfold normalizeAudio at hy
      rw [if_neg hpos] at hy
      have : |y| ≤ maxAbsValue audioBuffer := maxAbsValue_ge audioBuffer y hy
      rw [hz] at this
      linarith
    · unfold normalizeAudio
      rw [if_neg hpos]

/-- C9 witness: normalizing the buffer `[2, -4]` bounds its second output
sample `-1` by one in absolute value. -/
theorem normalizeAudio_spec_witness :
    |(-1 : ℚ)| ≤ 1 :=
  (normalizeAudio_spec [2, -4]).2.1 (-1) (by
    unfold normalizeAudio
    rw [maxAbsValue_two_four]
    norm_num)

/-- C7 counterexample: on the same video file, two runs whose
`onaudioprocess` callbacks deliver different chunk sequences extract
different audio buffers, so extraction is not a function of the input file
and the processing options alone. -/
theorem extractAudio_deterministic_counterexample :
    extractAudioFromVideo 0 [[1]] ≠ extractAudioFromVideo 0 [] := by
  decide

/-- C7 (amended): the post-decode processing chain is deterministic — equal
decoded buffers and equal options give identical outputs — while video
extraction returns exactly the concatenation of the chunks delivered by the
real-time audio-processing callbacks, so it is deterministic only in that
delivered stream, not in the video file alone. -/
theorem processAudioFile_deterministic :
    (∀ (b1 b2 : AudioBuf) (o1 o2 : AudioProcessingOptions),
        b1 = b2 → o1 = o2 → processAudioFile b1 o1 = processAudioFile b2 o2)
    ∧ (∀ (videoFile : ℕ) (chunks : List (List ℚ)),
        extractAudioFromVideo videoFile chunks = chunks.flatten) :=
  ⟨fun b1 b2 o1 o2 hb ho => by rw [hb, ho], fun _ _ => rfl⟩

/-- C7 witness: two runs of the chain on one concrete decoded buffer agree,
and extraction of two delivered chunks concatenates them. -/
theorem processAudioFile_deterministic_witness :
    processAudioFile ⟨[[1, 2]], 16000⟩ {} = processAudioFile ⟨[[1, 2]], 16000⟩ {}
    ∧ extractAudioFromVideo 0 [[1], [2]] = ([[1], [2]] : List (List ℚ)).flatten :=
  ⟨processAudioFile_deterministic.1 ⟨[[1, 2]], 16000⟩ ⟨[[1, 2]], 16000⟩ {} {} rfl rfl,
   processAudioFile_deterministic.2 0 [[1], [2]]⟩

/-! ## C1, C2, C5, C10 — the polling state machine -/

/-- A stopped polling loop performs no step and no action. -/
lemma pollStep_stopped (s : ClientState) (r : StatusReport) (h : s.polling = false) :
    pollStep s r = (s, false) := by
  simp [pollStep, h]

/-- The local `isCompleted` flag is never reset by a poll round. -/
lemma pollStep_isCompleted_mono (s : ClientState) (r : StatusReport)
    (h : s.isCompleted = true) : (pollStep s r).1.isCompleted = true := by
  unfold pollStep
  split
  · exact h
  · simp [h]

/-- Once the local `isCompleted` flag is set, a poll round performs no
terminal action. -/
lemma pollStep_no_action (s : ClientState) (r : StatusReport)
    (h : s.isCompleted = true) : (pollStep s r).2 = false := by
  unfold pollStep
  split
  · rfl
  · simp [h]

/-- A poll round that performs the terminal action sets `isCompleted`. -/
lemma pollStep_action_sets (s : ClientState) (r : StatusReport) :
    (pollStep s r).2 = true → (pollStep s r).1.isCompleted = true := by
  unfold pollStep
  split
  · intro h; exact absurd h (by simp)
  · split
    · intro _; rfl
    · split
      · intro _; rfl
      · split
        · intro _; rfl
        · intro h; exact absurd h (by simp)

/-- After `isCompleted` is set, no remaining poll round performs the
terminal action. -/
lemma runPollCount_completed (rs : List StatusReport) :
    ∀ s : ClientState, s.isCompleted = true → runPollCount s rs = 0 := by
  induction rs with
  | nil => intro s _; rfl
  | cons r rs ih =>
    intro s h
    show (if (pollStep s r).2 = true then 1 else 0) + runPollCount (pollStep s r).1 rs = 0
    rw [pollStep_no_action s r h, ih (pollStep s r).1 (pollStep_isCompleted_mono s r h)]
    rfl

/-- C1 counterexample: from the state right after submission, a poll that
reports `failed` observes a terminal status, yet the loop keeps polling
(the thrown error is caught by `scheduleNextPoll`) and the next poll
observes `running` — the task's observed status leaves a terminal state. -/
theorem status_leaves_terminal_counterexample :
    ((pollStep initClient ⟨.failed, 50⟩).1.observed = some .failed
      ∧ BackendStatus.isTerminal .failed = true)
    ∧ ((pollStep (pollStep initClient ⟨.failed, 50⟩).1 ⟨.running, 60⟩).1.observed
          = some .running
      ∧ BackendStatus.running ≠ BackendStatus.failed) := by
  refine ⟨⟨rfl, rfl⟩, ⟨rfl, by decide⟩⟩

/-- C1 (amended): a stopped polling loop changes nothing; while the
`isCompleted` flag is unset, observing `completed` or `cancelled` stops the
loop (so the observed status can never change afterwards); but observing
`failed` keeps the loop polling, so later reports may move the observed
status off `failed` — and the cancel handler resets the display state
without touching the observed status or the loop. -/
theorem pollStatus_terminal_absorption :
    (∀ (s : ClientState) (r : StatusReport), s.polling = false →
        (pollStep s r).1 = s ∧ (pollStep s r).2 = false)
    ∧ (∀ (s : ClientState) (r : StatusReport),
        s.polling = true → s.isCompleted = false →
        (r.status = .completed ∨ r.status = .cancelled) →
        (pollStep s r).1.polling = false
          ∧ (pollStep s r).1.observed = some r.status)
    ∧ (∀ (s : ClientState) (r : StatusReport),
        s.polling = true → s.isCompleted = false → r.status = .failed →
        (pollStep s r).1.polling = true
          ∧ (pollStep s r).1.observed = some r.status)
    ∧ (∀ s : ClientState,
        (cancelClick s).observed = s.observed
          ∧ (cancelClick s).polling = s.polling) := by
  refine ⟨?_, ?_, ?_, ?_⟩
  · intro s r h
    rw [pollStep_stopped s r h]
    exact ⟨rfl, rfl⟩
  · intro s r hp hc hst
    rcases hst with h | h <;> simp [pollStep, hp, hc, h]
  · intro s r hp hc h
    simp [pollStep, hp, hc, h]
  · intro s
    exact ⟨rfl, rfl⟩

/-- C1 witness: the amended theorem at concrete states — a stopped loop,
a live loop observing `completed`, a live loop observing `failed`, and a
cancel click. -/
theorem pollStatus_terminal_absorption_witness :
    ((pollStep { initClient with polling := false } ⟨.running, 10⟩).1
        = { initClient with polling := false }
      ∧ (pollStep { initClient with polling := false } ⟨.running, 10⟩).2 = false)
    ∧ ((pollStep initClient ⟨.completed, 100⟩).1.polling = false
      ∧ (pollStep initClient ⟨.completed, 100⟩).1.observed = some .completed)
    ∧ ((pollStep initClient ⟨.failed, 20⟩).1.polling = true
      ∧ (pollStep initClient ⟨.failed, 20⟩).1.observed = some .failed)
    ∧ ((cancelClick initClient).observed = initClient.observed
      ∧ (cancelClick initClient).polling = initClient.polling) :=
  ⟨pollStatus_terminal_absorption.1 { initClient with polling := false } ⟨.running, 10⟩ rfl,
   pollStatus_terminal_absorption.2.1 initClient ⟨.completed, 100⟩ rfl rfl (Or.inl rfl),
   pollStatus_terminal_absorption.2.2.1 initClient ⟨.failed, 20⟩ rfl rfl rfl,
   pollStatus_terminal_absorption.2.2.2 initClient⟩

/-- C2 counterexample: a poll round that reports `completed` with progress
99 produces a snapshot whose observed status is `completed` but whose
progress is not 100 — the poll update copies the backend progress verbatim
instead of forcing it to 100. -/
theorem progress_iff_completed_counterexample :
    (pollStep initClient ⟨.completed, 99⟩).1.observed = some .completed
    ∧ (pollStep initClient ⟨.completed, 99⟩).1.progress ≠ 100 := by
  refine ⟨rfl, ?_⟩
  norm_num [pollStep, initClient]

/-- C2 (amended): the SSE stream handler forces `progress := 100` exactly
on a `completed` event, but a poll snapshot carries the backend-reported
progress verbatim even when the reported status is `completed`, so
`progress = 100` iff `Completed` holds for poll snapshots only if the
backend enforces it. -/
theorem snapshot_progress_sources :
    (∀ s : StreamState, (streamStep s .completedEvent).progress = 100)
    ∧ (∀ (s : ClientState) (r : StatusReport),
        s.polling = true → r.status = .completed →
        (pollStep s r).1.progress = r.progress) := by
  refine ⟨fun s => rfl, ?_⟩
  intro s r hp hc
  by_cases hdone : s.isCompleted = true <;>
    simp [pollStep, hp, hc, hdone]

/-- C2 witness: the amended theorem at a concrete stream state and a
concrete poll of a `completed` report with progress 99. -/
theorem snapshot_progress_sources_witness :
    (streamStep ⟨true, 40⟩ .completedEvent).progress = 100
    ∧ (pollStep initClient ⟨.completed, 99⟩).1.progress = 99 :=
  ⟨snapshot_progress_sources.1 ⟨true, 40⟩,
   snapshot_progress_sources.2 initClient ⟨.completed, 99⟩ rfl rfl⟩

/-- C5 counterexample: a recovered task at progress 95 is still processing,
yet the very next simulated tick clamps progress to `min (95 + 2) 90 = 90`,
a strictly smaller value — progress is not monotonically non-decreasing
while the task is running. -/
theorem progress_monotone_counterexample :
    ({ initClient with progress := 95 } : ClientState).isProcessing = true
    ∧ (simStep { initClient with progress := 95 }).progress
        < ({ initClient with progress := 95 } : ClientState).progress := by
  refine ⟨rfl, ?_⟩
  show min ((95 : ℚ) + 2) 90 < 95
  norm_num

/-- C5 (amended): a simulated progress tick on a running task is
non-decreasing and stays within `[0, 90] ⊆ [0, 100]` provided the current
progress is at most 90 (a recovered progress above 90 is clamped down to
90, as the counterexample shows), and a poll round on a running task
copies the backend-reported progress verbatim, enforcing no monotonicity
of its own. -/
theorem progress_simulation_bounds :
    (∀ s : ClientState, s.isProcessing = true → 0 ≤ s.progress → s.progress ≤ 90 →
        s.progress ≤ (simStep s).progress
          ∧ 0 ≤ (simStep s).progress ∧ (simStep s).progress ≤ 90)
    ∧ (∀ (s : ClientState) (r : StatusReport),
        s.polling = true → r.status = .running →
        (pollStep s r).1.progress = r.progress) := by
  constructor
  · intro s hp h0 h90
    have hstep : (simStep s).progress = min (s.progress + 2) 90 := by
      simp [simStep, hp]
    refine ⟨?_, ?_, ?_⟩
    · rw [hstep]
      exact le_min (by linarith) h90
    · rw [hstep]
      exact le_min (by linarith) (by norm_num)
    · rw [hstep]
      exact min_le_right _ _
  · intro s r hp hr
    simp [pollStep, hp, hr]

/-- C5 witness: the amended theorem at a running task with progress 40 and
a poll reporting `running` with progress 55. -/
theorem progress_simulation_bounds_witness :
    (({ initClient with progress := 40 } : ClientState).progress
        ≤ (simStep { initClient with progress := 40 }).progress
      ∧ 0 ≤ (simStep { initClient with progress := 40 }).progress
      ∧ (simStep { initClient with progress := 40 }).progress ≤ 90)
    ∧ (pollStep initClient ⟨.running, 55⟩).1.progress = 55 :=
  ⟨progress_simulation_bounds.1 { initClient with progress := 40 } rfl
      (by norm_num) (by norm_num),
   progress_simulation_bounds.2 initClient ⟨.running, 55⟩ rfl rfl⟩

/-- C10: the one-shot terminal actions of the polling loop run at most once
per task — any sequence of polled reports performs the action at most once,
a round with `isCompleted` already set performs no action, and the round
that does perform the action sets `isCompleted`. -/
theorem terminal_action_at_most_once :
    (∀ (s : ClientState) (rs : List StatusReport), runPollCount s rs ≤ 1)
    ∧ (∀ (s : ClientState) (r : StatusReport),
        s.isCompleted = true → (pollStep s r).2 = false)
    ∧ (∀ (s : ClientState) (r : StatusReport),
        (pollStep s r).2 = true → (pollStep s r).1.isCompleted = true) := by
  refine ⟨?_, pollStep_no_action, pollStep_action_sets⟩
  intro s rs
  induction rs generalizing s with
  | nil => exact Nat.zero_le 1
  | cons r rs ih =>
    show (if (pollStep s r).2 = true then 1 else 0) + runPollCount (pollStep s r).1 rs ≤ 1
    by_cases ha : (pollStep s r).2 = true
    · rw [if_pos ha, runPollCount_completed rs (pollStep s r).1
        (pollStep_action_sets s r ha)]
    · rw [if_neg ha]
      simpa using ih (pollStep s r).1

/-- C10 witness: a trace that reports `completed` twice performs the
terminal action at most once; a round on an already-completed state
performs no action; the acting round sets the flag. -/
theorem terminal_action_at_most_once_witness :
    runPollCount initClient [⟨.completed, 100⟩, ⟨.completed, 100⟩] ≤ 1
    ∧ (pollStep { initClient with isCompleted := true } ⟨.completed, 100⟩).2 = false
    ∧ (pollStep initClient ⟨.completed, 100⟩).1.isCompleted = true :=
  ⟨terminal_action_at_most_once.1 initClient [⟨.completed, 100⟩, ⟨.completed, 100⟩],
   terminal_action_at_most_once.2.1 { initClient with isCompleted := true }
     ⟨.completed, 100⟩ rfl,
   terminal_action_at_most_once.2.2 initClient ⟨.completed, 100⟩ rfl⟩

/-! ## C8 — task retention in `TaskManager.loadTask` -/

/-- C8 counterexample: a saved generate task whose `startTime` is 0 (a
JavaScript-falsy timestamp) is returned unchanged by `loadTask` even though
its elapsed time of 10^10 ms far exceeds the 60-minute generate retention
window — the truthiness guard `status.startTime && ...` skips the expiry
check. -/
theorem loadTask_retention_counterexample :
    loadTask (some ⟨true, 50, .generate, 0⟩) 10000000000
        = some ⟨true, 50, .generate, 0⟩
    ∧ (10000000000 : ℤ) - 0 > getExpirationTime .generate := by
  exact ⟨rfl, by norm_num [getExpirationTime]⟩

/-- C8 (amended): for every saved record with a nonzero `startTime`, a load
at a time exceeding the record's retention window (generate 60 min,
translate 45 min, burn 90 min) removes it and reports no task; every record
still within its window is returned unchanged; and a record whose
`startTime` is zero (JavaScript-falsy, as a missing one) is never expired,
as the counterexample shows. -/
theorem loadTask_retention (st : SavedStatus) (now : ℤ) :
    (st.startTime ≠ 0 → now - st.startTime > getExpirationTime st.operation →
        loadTask (some st) now = none)
    ∧ (now - st.startTime ≤ getExpirationTime st.operation →
        loadTask (some st) now = some st)
    ∧ (st.startTime = 0 → loadTask (some st) now = some st) := by
  refine ⟨?_, ?_, ?_⟩
  · intro hnz hold
    show (if st.startTime ≠ 0 ∧ now - st.startTime > getExpirationTime st.operation
        then none else some st) = none
    rw [if_pos ⟨hnz, hold⟩]
  · intro hyoung
    show (if st.startTime ≠ 0 ∧ now - st.startTime > getExpirationTime st.operation
        then none else some st) = some st
    rw [if_neg (fun h => absurd h.2 (not_lt.mpr hyoung))]
  · intro hz
    show (if st.startTime ≠ 0 ∧ now - st.startTime > getExpirationTime st.operation
        then none else some st) = some st
    rw [if_neg (fun h => absurd hz h.1)]

/-- C8 witness: the amended theorem at an expired translate record, a young
burn record, and a zero-timestamp record. -/
theorem loadTask_retention_witness :
    loadTask (some ⟨true, 10, .translateTask, 1000⟩) 2800000000 = none
    ∧ loadTask (some ⟨true, 10, .burn, 1000⟩) 2000000 = some ⟨true, 10, .burn, 1000⟩
    ∧ loadTask (some ⟨true, 10, .generate, 0⟩) 2800000000
        = some ⟨true, 10, .generate, 0⟩ :=
  ⟨(loadTask_retention ⟨true, 10, .translateTask, 1000⟩ 2800000000).1 (by norm_num)
      (by norm_num [getExpirationTime]),
   (loadTask_retention ⟨true, 10, .burn, 1000⟩ 2000000).2.1
      (by norm_num [getExpirationTime]),
   (loadTask_retention ⟨true, 10, .generate, 0⟩ 2800000000).2.2 rfl⟩

/-! ## C4 — requestCancel idempotence (spec-modelled registry) -/

/-- Updating a present key makes lookup return the new record. -/
lemma lookupTask_updateTask (reg : List (ℕ × RegTask)) (taskId : ℕ) (t2 : RegTask) :
    ∀ t, lookupTask reg taskId = some t →
      lookupTask (updateTask reg taskId t2) taskId = some t2 := by
  induction reg with
  | nil => intro t h; cases h
  | cons p rest ih =>
    intro t h
    by_cases hk : p.1 = taskId
    · show lookupTask (if p.1 = taskId then (p.1, t2) :: rest
          else p :: updateTask rest taskId t2) taskId = some t2
      rw [if_pos hk]
      show (if p.1 = taskId then some t2 else lookupTask rest taskId) = some t2
      rw [if_pos hk]
    · have h2 : lookupTask rest taskId = some t := by
        have heq : lookupTask (p :: rest) taskId
            = if p.1 = taskId then some p.2 else lookupTask rest taskId := rfl
        rw [heq, if_neg hk] at h
        exact h
      show lookupTask (if p.1 = taskId then (p.1, t2) :: rest
          else p :: updateTask rest taskId t2) taskId = some t2
      rw [if_neg hk]
      show (if p.1 = taskId then some p.2
          else lookupTask (updateTask rest taskId t2) taskId) = some t2
      rw [if_neg hk]
      exact ih t h2

/-- Writing back the record that is already stored changes nothing. -/
lemma updateTask_same (reg : List (ℕ × RegTask)) (taskId : ℕ) :
    ∀ t, lookupTask reg taskId = some t → updateTask reg taskId t = reg := by
  induction reg with
  | nil => intro t _; rfl
  | cons p rest ih =>
    intro t h
    have heq : lookupTask (p :: rest) taskId
        = if p.1 = taskId then some p.2 else lookupTask rest taskId := rfl
    by_cases hk : p.1 = taskId
    · rw [heq, if_pos hk] at h
      injection h with h
      show (if p.1 = taskId then (p.1, t) :: rest else p :: updateTask rest taskId t)
          = p :: rest
      rw [if_pos hk, ← h]
    · rw [heq, if_neg hk] at h
      show (if p.1 = taskId then (p.1, t) :: rest else p :: updateTask rest taskId t)
          = p :: rest
      rw [if_neg hk, ih t h]

/-- After the registry cleanup evicts a task id, lookup misses it. -/
lemma lookupTask_cleanup (reg : List (ℕ × RegTask)) (taskId : ℕ) :
    lookupTask (cleanupRegistry reg taskId) taskId = none := by
  induction reg with
  | nil => rfl
  | cons p rest ih =>
    by_cases hk : p.1 = taskId
    · show lookupTask (if p.1 = taskId then cleanupRegistry rest taskId
          else p :: cleanupRegistry rest taskId) taskId = none
      rw [if_pos hk]
      exact ih
    · show lookupTask (if p.1 = taskId then cleanupRegistry rest taskId
          else p :: cleanupRegistry rest taskId) taskId = none
      rw [if_neg hk]
      show (if p.1 = taskId then some p.2
          else lookupTask (cleanupRegistry rest taskId) taskId) = none
      rw [if_neg hk]
      exact ih

/-- `requestCancel` on a missing task reports `NotFound` and changes
nothing. -/
lemma requestCancel_of_none (reg : List (ℕ × RegTask)) (taskId : ℕ)
    (h : lookupTask reg taskId = none) :
    requestCancel reg taskId = (.notFound, reg) := by
  unfold requestCancel
  rw [h]

/-- `requestCancel` on a live task returns `ok` and only sets the
cancellation flag. -/
lemma requestCancel_of_live (reg : List (ℕ × RegTask)) (taskId : ℕ) (u : RegTask)
    (h : lookupTask reg taskId = some u) (hl : u.status.isTerminal = false) :
    requestCancel reg taskId
      = (.ok, updateTask reg taskId { u with cancelRequested := true }) := by
  unfold requestCancel
  rw [h]
  simp [hl]

/-- `requestCancel` on a terminal task reports `AlreadyTerminal` and
changes nothing. -/
lemma requestCancel_of_terminal (reg : List (ℕ × RegTask)) (taskId : ℕ) (u : RegTask)
    (h : lookupTask reg taskId = some u) (hl : u.status.isTerminal = true) :
    requestCancel reg taskId = (.alreadyTerminal, reg) := by
  unfold requestCancel
  rw [h]
  simp [hl]

/-- C4: on a live task, `requestCancel` returns `ok`; an immediate repeat
changes no registry state; once the executor settles the cancellation the
second call returns `AlreadyTerminal` and changes nothing; and after
cleanup it returns `NotFound` and changes nothing. -/
theorem requestCancel_twice (reg : List (ℕ × RegTask)) (taskId : ℕ) (t : RegTask)
    (hfind : lookupTask reg taskId = some t)
    (hlive : t.status.isTerminal = false) :
    (requestCancel reg taskId).1 = .ok
    ∧ (requestCancel (requestCancel reg taskId).2 taskId).2
        = (requestCancel reg taskId).2
    ∧ requestCancel (settleCancel (requestCancel reg taskId).2 taskId) taskId
        = (.alreadyTerminal, settleCancel (requestCancel reg taskId).2 taskId)
    ∧ requestCancel (cleanupRegistry (requestCancel reg taskId).2 taskId) taskId
        = (.notFound, cleanupRegistry (requestCancel reg taskId).2 taskId) := by
  have hfirst : requestCancel reg taskId
      = (.ok, updateTask reg taskId { t with cancelRequested := true }) :=
    requestCancel_of_live reg taskId t hfind hlive
  have hlook1 : lookupTask (requestCancel reg taskId).2 taskId
      = some { t with cancelRequested := true } := by
    rw [hfirst]
    exact lookupTask_updateTask reg taskId _ t hfind
  refine ⟨by rw [hfirst], ?_, ?_, ?_⟩
  · have hsecond := requestCancel_of_live (requestCancel reg taskId).2 taskId
      { t with cancelRequested := true } hlook1 hlive
    rw [hsecond]
    exact updateTask_same _ taskId _ hlook1
  · have hsettle : settleCancel (requestCancel reg taskId).2 taskId
        = updateTask (requestCancel reg taskId).2 taskId
            { status := .cancelled, cancelRequested := true } := by
      unfold settleCancel
      rw [hlook1]
      simp [hlive]
    have hlook2 : lookupTask (settleCancel (requestCancel reg taskId).2 taskId) taskId
        = some { status := .cancelled, cancelRequested := true } := by
      rw [hsettle]
      exact lookupTask_updateTask _ taskId _ _ hlook1
    exact requestCancel_of_terminal _ taskId _ hlook2 rfl
  · exact requestCancel_of_none _ taskId
      (lookupTask_cleanup (requestCancel reg taskId).2 taskId)

/-- C4 witness: the idempotence scenario on a one-task registry holding a
running task with id 1. -/
theorem requestCancel_twice_witness :
    (requestCancel [(1, ⟨.running, false⟩)] 1).1 = .ok
    ∧ (requestCancel (requestCancel [(1, ⟨.running, false⟩)] 1).2 1).2
        = (requestCancel [(1, ⟨.running, false⟩)] 1).2
    ∧ requestCancel (settleCancel (requestCancel [(1, ⟨.running, false⟩)] 1).2 1) 1
        = (.alreadyTerminal, settleCancel (requestCancel [(1, ⟨.running, false⟩)] 1).2 1)
    ∧ requestCancel (cleanupRegistry (requestCancel [(1, ⟨.running, false⟩)] 1).2 1) 1
        = (.notFound, cleanupRegistry (requestCancel [(1, ⟨.running, false⟩)] 1).2 1) :=
  requestCancel_twice [(1, ⟨.running, false⟩)] 1 ⟨.running, false⟩ rfl rfl

/-! ## C3 — thundering-herd guard (spec-modelled ModelCache) -/

/-- As long as the key is in flight or cached, further borrow entries issue
no load call. -/
lemma borrowMany_loadCount_stable (modelKey : String) (n : ℕ) :
    ∀ c : CacheState, modelKey ∈ c.inFlight ∨ modelKey ∈ c.loadedKeys →
      (borrowMany c modelKey n).loadCount = c.loadCount := by
  induction n with
  | zero => intro c _; rfl
  | succ n ih =>
    intro c h
    show (borrowMany (borrowStart c modelKey) modelKey n).loadCount = c.loadCount
    by_cases hl : modelKey ∈ c.loadedKeys
    · rw [show borrowStart c modelKey = c by unfold borrowStart; rw [if_pos hl]]
      exact ih c h
    · have hf : modelKey ∈ c.inFlight := h.resolve_right hl
      have hstart : borrowStart c modelKey = { c with waiting := c.waiting + 1 } := by
        unfold borrowStart
        rw [if_neg hl, if_pos hf]
      rw [hstart]
      exact ih _ (Or.inl hf)

/-- C3: `n ≥ 1` concurrent `borrow` entries for one uncached model key
issue exactly one external load call, and after the in-flight load
completes, any further borrows of that key still leave the total at one
load. -/
theorem thundering_herd_single_load (modelKey : String) (n m : ℕ) (hn : 1 ≤ n) :
    (borrowMany emptyCache modelKey n).loadCount = 1
    ∧ (borrowMany
          (loadComplete (borrowMany emptyCache modelKey n) modelKey)
          modelKey m).loadCount = 1 := by
  obtain ⟨k, rfl⟩ : ∃ k, n = k + 1 := ⟨n - 1, (Nat.succ_pred_eq_of_pos hn).symm⟩
  have hstart : borrowStart emptyCache modelKey
      = { loadedKeys := [], inFlight := [modelKey], waiting := 0, loadCount := 1 } := by
    unfold borrowStart emptyCache
    simp
  have hone : (borrowMany emptyCache modelKey (k + 1)).loadCount = 1 := by
    show (borrowMany (borrowStart emptyCache modelKey) modelKey k).loadCount = 1
    rw [hstart]
    exact borrowMany_loadCount_stable modelKey k _ (Or.inl (List.mem_singleton.mpr rfl))
  refine ⟨hone, ?_⟩
  rw [borrowMany_loadCount_stable modelKey m _
    (Or.inr (List.mem_cons_self _ _))]
  exact hone

/-- C3 witness: three concurrent borrows of the key `small` from the empty
cache load once, and two more borrows after the load completes keep the
count at one. -/
theorem thundering_herd_single_load_witness :
    (borrowMany emptyCache "small" 3).loadCount = 1
    ∧ (borrowMany (loadComplete (borrowMany emptyCache "small" 3) "small")
          "small" 2).loadCount = 1 :=
  thundering_herd_single_load "small" 3 2 (by norm_num)

end AVD
